import Mathlib

/-!
Shallow embedding of the `paymongo` TypeScript SDK (request/response
marshaling layer) and proofs about it.

The embedding covers:
* `BaseResource.toSnakeCase` / `BaseResource.wrapBody` (resources/BaseResource),
* `PayMongoError.fromResponse` (utils/errors.ts),
* `HttpClient.buildUrl` query handling, `HttpClient.getAuthHeader`,
  and `HttpClient.request` (utils/http.ts),
* `PayMongo.resolveConfig`, `PayMongo.getInstance`, `PayMongo.resetInstance`
  (PayMongo.ts).

Modelling conventions:
* JavaScript runtime values reachable by the body transform are modelled by
  the inductive `JValue`; `undefined` and `null` are separate constructors
  because the code distinguishes them from other values.
* JavaScript objects are association lists in insertion order
  (`Object.entries` enumerates own keys in that order).
* Strings are Lean `String`s; where byte-level work matters (base64 in
  `getAuthHeader`) strings are taken to their code-point lists via
  `asciiCodes` (all strings involved are ASCII, so code points, UTF-16
  units and latin1 bytes coincide).
* Thrown exceptions are modelled with `Except` / explicit result
  constructors; the mutable singleton field `PayMongo.instance` is modelled
  by explicit state passing of an `Option PayMongoClient`.
-/

namespace PayMongoSpec

/-- JS runtime value as seen by the body transform: `undefined`, `null`,
booleans, numbers, strings, arrays and plain objects (association lists in
key insertion order). -/
inductive JValue where
  | null : JValue
  | undef : JValue
  | bool (b : Bool) : JValue
  | num (n : Int) : JValue
  | str (s : String) : JValue
  | arr (elems : List JValue) : JValue
  | obj (fields : List (String × JValue)) : JValue

/-- Absent value in the sense of the guard
`value !== undefined && value !== null` in `toSnakeCase`. -/
def JValue.isAbsent : JValue → Bool
  | .null => true
  | .undef => true
  | _ => false

/-- Replacement performed on one character by
`key.replace(/[A-Z]/g, (letter) => `_${letter.toLowerCase()}`)`:
an ASCII uppercase letter becomes an underscore followed by its lowercase
form, every other character is kept.  (`Char.isUpper` is exactly the ASCII
range `A`–`Z` that the regex `[A-Z]` matches, and `Char.toLower` agrees
with `toLowerCase()` on that range.) -/
def expandChar (c : Char) : List Char :=
  if c.isUpper then ['_', c.toLower] else [c]

/-- Key transform of `BaseResource.toSnakeCase`:
`key.replace(/[A-Z]/g, (letter) => `_${letter.toLowerCase()}`)`. -/
def snakeKey (s : String) : String :=
  ⟨s.data.flatMap expandChar⟩

mutual
/-- `BaseResource.toSnakeCase` (resources/BaseResource): iterates the
entries of the object; keys are snake-cased; entries whose value is
`undefined` or `null` are dropped; plain-object values (`typeof value ===
'object' && !Array.isArray(value)`, with `null` already excluded) are
transformed recursively; all other values, arrays included, are kept
as they are. -/
def toSnakeCase : List (String × JValue) → List (String × JValue)
  | [] => []
  | (key, value) :: rest =>
    if value.isAbsent then toSnakeCase rest
    else (snakeKey key, transformValue value) :: toSnakeCase rest

/-- Value side of one `toSnakeCase` entry: recurse into plain objects,
leave every other value (arrays included) unchanged. -/
def transformValue : JValue → JValue
  | .obj fields => .obj (toSnakeCase fields)
  | v => v
end

/-- `BaseResource.wrapBody`: wraps the transformed attributes as
`{ data: { attributes: this.toSnakeCase(attributes) } }`. -/
def wrapBody (attributes : List (String × JValue)) : JValue :=
  .obj [("data", .obj [("attributes", .obj (toSnakeCase attributes))])]

mutual
/-- Invariant checked on a produced body: at every object (non-sequence)
nesting level no value is absent (`undefined`/`null`) and no key contains
an ASCII uppercase letter.  Array elements are not inspected, matching the
transform, which never descends into sequences. -/
def cleanFields : List (String × JValue) → Bool
  | [] => true
  | (key, value) :: rest =>
    !value.isAbsent && key.data.all (fun c => !c.isUpper)
      && cleanValue value && cleanFields rest

/-- Value side of `cleanFields`: only plain objects are inspected further. -/
def cleanValue : JValue → Bool
  | .obj fields => cleanFields fields
  | _ => true
end

/-- One error detail of the PayMongo error response body
(`PayMongoErrorDetail` in utils/errors.ts). -/
structure PayMongoErrorDetail where
  code : String
  detail : String
  source : Option (Option String × Option String) := none
deriving DecidableEq

/-- `PayMongoError` (utils/errors.ts): the constructor stores the message
(on `Error`), the HTTP status, the primary code, the full detail list and
the raw response body.  The raw body is modelled by its `errors`
projection: `fromResponse` reads nothing else from it (`none` stands for a
body that is absent or carries no `errors` array). -/
structure PayMongoError where
  name : String := "PayMongoError"
  message : String
  status : Nat
  code : String
  errors : List PayMongoErrorDetail
  rawResponse : Option (List PayMongoErrorDetail)
deriving DecidableEq

/-- `PayMongoError.fromResponse` (utils/errors.ts lines 70-79):
`errors = body?.errors ?? []`, `firstError = errors[0]`,
`message = firstError?.detail ?? 'PayMongo API error (status N)'`,
`code = firstError?.code ?? 'unknown_error'`. -/
def fromResponse (status : Nat) (body : Option (List PayMongoErrorDetail)) :
    PayMongoError :=
  let errors := body.getD []
  let firstError := errors.head?
  { message := (firstError.map PayMongoErrorDetail.detail).getD
      ("PayMongo API error (status " ++ toString status ++ ")")
    status := status
    code := (firstError.map PayMongoErrorDetail.code).getD "unknown_error"
    errors := errors
    rawResponse := body }

/-- Query parameter value accepted by `HttpClient`:
`string | number | boolean | undefined`. -/
inductive ParamValue where
  | str (s : String) : ParamValue
  | num (n : Int) : ParamValue
  | bool (b : Bool) : ParamValue
  | undef : ParamValue
deriving DecidableEq

/-- Test for the guard `value !== undefined` in `buildUrl`. -/
def ParamValue.isUndef : ParamValue → Bool
  | .undef => true
  | _ => false

/-- `String(value)` for a defined query parameter value. -/
def paramString : ParamValue → String
  | .str s => s
  | .num n => toString n
  | .bool b => if b then "true" else "false"
  | .undef => "undefined"

/-- Query pairs appended by `HttpClient.buildUrl` (utils/http.ts lines
32-44): for each entry, `if (value !== undefined)
url.searchParams.append(key, String(value))`; an absent `params` argument
appends nothing. -/
def buildUrlQuery (params : Option (List (String × ParamValue))) :
    List (String × String) :=
  match params with
  | none => []
  | some ps =>
    ps.foldl
      (fun acc kv =>
        if kv.2.isUndef then acc else acc ++ [(kv.1, paramString kv.2)])
      []

/-- Code points of a string (for the ASCII strings handled here these are
also its latin1 bytes, which is what `btoa` / `Buffer.from(...)` encode). -/
def asciiCodes (s : String) : List Nat := s.data.map Char.toNat

/-- Character of the standard base64 alphabet at index `n < 64`, as a byte. -/
def b64Char (n : Nat) : Nat :=
  if n < 26 then 65 + n
  else if n < 52 then 97 + (n - 26)
  else if n < 62 then 48 + (n - 52)
  else if n = 62 then 43
  else 47

/-- Standard base64 encoding of a byte list (the behaviour of `btoa` /
`Buffer.toString('base64')` used by `getAuthHeader`): 3-byte groups become
4 alphabet characters, a trailing group of 1 or 2 bytes is padded with
`=` (byte 61). -/
def base64EncodeBytes : List Nat → List Nat
  | [] => []
  | [b1] => [b64Char (b1 / 4), b64Char (b1 % 4 * 16), 61, 61]
  | [b1, b2] =>
    [b64Char (b1 / 4), b64Char (b1 % 4 * 16 + b2 / 16),
     b64Char (b2 % 16 * 4), 61]
  | b1 :: b2 :: b3 :: rest =>
    b64Char (b1 / 4) :: b64Char (b1 % 4 * 16 + b2 / 16)
      :: b64Char (b2 % 16 * 4 + b3 / 64) :: b64Char (b3 % 64)
      :: base64EncodeBytes rest

/-- Index of a base64 alphabet byte (inverse of `b64Char`). -/
def b64Val (c : Nat) : Nat :=
  if 65 ≤ c ∧ c ≤ 90 then c - 65
  else if 97 ≤ c ∧ c ≤ 122 then c - 97 + 26
  else if 48 ≤ c ∧ c ≤ 57 then c - 48 + 52
  else if c = 43 then 62
  else 63

/-- Standard base64 decoding of an encoded byte list: each 4-character
group yields 3 bytes, or fewer at the end according to `=` padding. -/
def base64DecodeBytes : List Nat → List Nat
  | c1 :: c2 :: c3 :: c4 :: rest =>
    if c3 = 61 then [b64Val c1 * 4 + b64Val c2 / 16]
    else if c4 = 61 then
      [b64Val c1 * 4 + b64Val c2 / 16, b64Val c2 % 16 * 16 + b64Val c3 / 4]
    else
      (b64Val c1 * 4 + b64Val c2 / 16)
        :: (b64Val c2 % 16 * 16 + b64Val c3 / 4)
        :: (b64Val c3 % 4 * 64 + b64Val c4)
        :: base64DecodeBytes rest
  | _ => []

/-- `HttpClient.getAuthHeader` (utils/http.ts lines 49-59): the header
value is `Basic ` followed by the base64 encoding of
`` `${this.config.apiKey}:` `` (API key as username, empty password),
given here as the byte list of the produced header value. -/
def getAuthHeader (apiKey : String) : List Nat :=
  let credentials := apiKey ++ ":"
  asciiCodes "Basic " ++ base64EncodeBytes (asciiCodes credentials)

/-- Headers attached by `HttpClient.request` (utils/http.ts lines 68-72). -/
def requestHeaders (apiKey : String) : List (String × List Nat) :=
  [("Authorization", getAuthHeader apiKey),
   ("Content-Type", asciiCodes "application/json"),
   ("Accept", asciiCodes "application/json")]

/-- Outcome of the underlying `fetch` call: either the call itself fails
(rejects) with some cause, or it completes with a status and a body text. -/
inductive FetchOutcome where
  | failure (cause : String) : FetchOutcome
  | success (status : Nat) (text : String) : FetchOutcome

/-- Result of `HttpClient.request`: a thrown `PayMongoNetworkError`
(message plus original cause), a thrown `PayMongoError` — recorded as the
pair of arguments `(status, responseBody)` the code passes to
`PayMongoError.fromResponse`, whose construction is modelled by
`fromResponse` — or the parsed body returned to the caller. -/
inductive RequestResult where
  | networkError (message : String) (cause : String) : RequestResult
  | apiError (status : Nat) (body : Option JValue) : RequestResult
  | ok (body : Option JValue) : RequestResult
deriving Inhabited

/-- Success test `response.ok`: status in the inclusive range 200-299. -/
def statusOk (status : Nat) : Bool := 200 ≤ status && status ≤ 299

/-- Body parsing in `HttpClient.request`:
`responseBody = text ? JSON.parse(text) : null`, with any parse exception
caught and replaced by `null`.  `parse` models `JSON.parse`, returning
`none` exactly when it would throw; `none` as a whole stands for the
`null`/absent body. -/
def parseBody (parse : String → Option JValue) (text : String) :
    Option JValue :=
  if text = "" then none else parse text

/-- `HttpClient.request` (utils/http.ts lines 64-109) after the URL and
headers are built: a `fetch` rejection becomes a `PayMongoNetworkError`
with the fixed message; otherwise the body text is parsed leniently, then
a non-2xx status throws `PayMongoError.fromResponse(status, responseBody)`
and a 2xx status returns the parsed body. -/
def request (parse : String → Option JValue) (outcome : FetchOutcome) :
    RequestResult :=
  match outcome with
  | .failure cause =>
    .networkError "Network error while communicating with PayMongo API" cause
  | .success status text =>
    let responseBody := parseBody parse text
    if statusOk status then .ok responseBody
    else .apiError status responseBody

/-- `PayMongoConfig` (types/config): optional public key, secret key and
base URL.  `none` models an omitted field; the empty string is falsy in
the JS guards just like an omitted field. -/
structure PayMongoConfig where
  publicKey : Option String := none
  secretKey : Option String := none
  baseUrl : Option String := none

/-- `ResolvedConfig`: validated API key, base URL and key-mode flag. -/
structure ResolvedConfig where
  apiKey : String
  baseUrl : String
  isPublicKey : Bool
deriving DecidableEq

/-- JS truthiness of a `string | undefined` value: `undefined` and the
empty string are falsy. -/
def strTruthy : Option String → Bool
  | none => false
  | some s => !(s == "")

/-- Default base URL `DEFAULT_BASE_URL` in PayMongo.ts. -/
def defaultBaseUrl : String := "https://api.paymongo.com/v1"

/-- JS `String.prototype.startsWith`, used by the key-format checks:
true when the pattern is an initial run of the string's characters. -/
def jsStartsWith (s p : String) : Bool := p.data.isPrefixOf s.data

/-- `PayMongo.resolveConfig` (PayMongo.ts lines 275-307): no credential
throws a `PayMongoConfigError`; otherwise `apiKey = secretKey ||
publicKey`, `isPublicKey = !secretKey && !!publicKey`, the key must start
with `pk_` in public mode and `sk_` in secret mode, and the base URL
defaults to `defaultBaseUrl`.  A thrown `PayMongoConfigError` is modelled
as `Except.error` carrying its message. -/
def resolveConfig (config : PayMongoConfig) : Except String ResolvedConfig :=
  if !strTruthy config.publicKey && !strTruthy config.secretKey then
    .error ("PayMongo requires either a publicKey or secretKey. " ++
      "Use publicKey for client-side operations, secretKey for server-side operations.")
  else
    let apiKey :=
      if strTruthy config.secretKey then config.secretKey.getD ""
      else config.publicKey.getD ""
    let isPublicKey := !strTruthy config.secretKey && strTruthy config.publicKey
    if isPublicKey && !(jsStartsWith apiKey "pk_") then
      .error "Invalid public key format. Public keys should start with \"pk_test_\" or \"pk_live_\"."
    else if !isPublicKey && !(jsStartsWith apiKey "sk_") then
      .error "Invalid secret key format. Secret keys should start with \"sk_test_\" or \"sk_live_\"."
    else
      .ok { apiKey := apiKey
            baseUrl := if strTruthy config.baseUrl then config.baseUrl.getD ""
              else defaultBaseUrl
            isPublicKey := isPublicKey }

/-- Constructed `PayMongo` client.  The resource handlers all wrap the one
`HttpClient` built from the resolved configuration, so the client is
determined by that configuration. -/
structure PayMongoClient where
  config : ResolvedConfig
deriving DecidableEq

/-- `new PayMongo(config)`: resolves and validates the configuration
(propagating a `PayMongoConfigError`) and builds the client. -/
def mkPayMongo (config : PayMongoConfig) : Except String PayMongoClient :=
  (resolveConfig config).map PayMongoClient.mk

/-- `PayMongo.getInstance` (PayMongo.ts lines 242-247) with the static
`PayMongo.instance` field passed as explicit state: when an instance is
stored and `forceNew` is falsy it is returned unchanged; otherwise a new
client is constructed and stored, and a construction error propagates
before the assignment, leaving the stored state as it was.  The result is
the returned value (or thrown error) together with the new stored state. -/
def getInstance (config : PayMongoConfig) (forceNew : Bool)
    (inst : Option PayMongoClient) :
    Except String PayMongoClient × Option PayMongoClient :=
  match inst, forceNew with
  | some p, false => (.ok p, some p)
  | _, _ =>
    match mkPayMongo config with
    | .error e => (.error e, inst)
    | .ok p => (.ok p, some p)

/-- `PayMongo.resetInstance` (PayMongo.ts lines 254-256): clears the
stored instance. -/
def resetInstance (_inst : Option PayMongoClient) : Option PayMongoClient :=
  none

/-! Helper lemmas about the key transform. -/

theorem toLower_not_upper (c : Char) (h : c.isUpper = true) :
    (c.toLower).isUpper = false := by
  simp only [Char.isUpper, Bool.and_eq_true, decide_eq_true_eq] at h
  obtain ⟨h1, h2⟩ := h
  have h1' : 65 ≤ c.val.toNat := h1
  have h2' : c.val.toNat ≤ 90 := h2
  simp only [Char.isUpper, Char.toLower, Char.toNat, Char.ofNat]
  rw [if_pos ⟨h1', h2'⟩]
  have hvalid : (c.val.toNat + 32).isValidChar := by
    left
    omega
  rw [dif_pos hvalid]
  have hv : (Char.ofNatAux (c.val.toNat + 32) hvalid).val.toNat
      = c.val.toNat + 32 := by
    simp [Char.ofNatAux, UInt32.ofNat', UInt32.toNat]
  simp only [Bool.and_eq_false_iff, decide_eq_false_iff_not]
  right
  intro hle
  have : (Char.ofNatAux (c.val.toNat + 32) hvalid).val.toNat ≤ 90 := hle
  omega

theorem expandChar_not_upper (c : Char) (d : Char) (hd : d ∈ expandChar c) :
    d.isUpper = false := by
  unfold expandChar at hd
  by_cases hc : c.isUpper = true
  · rw [if_pos hc] at hd
    simp only [List.mem_cons, List.not_mem_nil, or_false] at hd
    rcases hd with rfl | rfl
    · decide
    · exact toLower_not_upper c hc
  · rw [if_neg hc] at hd
    simp only [List.mem_cons, List.not_mem_nil, or_false] at hd
    subst hd
    simpa using hc

theorem expandChar_of_not_upper (c : Char) (hc : c.isUpper = false) :
    expandChar c = [c] := by
  unfold expandChar
  rw [hc]
  simp

theorem flatMap_expandChar_fixed (l : List Char)
    (h : ∀ d ∈ l, d.isUpper = false) : l.flatMap expandChar = l := by
  induction l with
  | nil => rfl
  | cons d ds ih =>
    simp only [List.flatMap_cons]
    rw [expandChar_of_not_upper d (h d (by simp)),
      ih (fun e he => h e (by simp [he]))]
    rfl

theorem snakeKey_not_upper (s : String) (d : Char) (hd : d ∈ (snakeKey s).data) :
    d.isUpper = false := by
  unfold snakeKey at hd
  simp only [List.mem_flatMap] at hd
  obtain ⟨c, _, hdc⟩ := hd
  exact expandChar_not_upper c d hdc

theorem snakeKey_of_not_upper (s : String)
    (h : ∀ d ∈ s.data, d.isUpper = false) : snakeKey s = s := by
  show String.mk (s.data.flatMap expandChar) = s
  rw [flatMap_expandChar_fixed s.data h]

theorem snakeKey_idem (s : String) : snakeKey (snakeKey s) = snakeKey s :=
  snakeKey_of_not_upper (snakeKey s) (snakeKey_not_upper s)

theorem transformValue_isAbsent (v : JValue) :
    (transformValue v).isAbsent = v.isAbsent := by
  cases v <;> rfl

theorem toSnakeCase_cons_absent (key : String) (value : JValue)
    (rest : List (String × JValue)) (h : value.isAbsent = true) :
    toSnakeCase ((key, value) :: rest) = toSnakeCase rest := by
  rw [toSnakeCase]
  rw [if_pos h]

theorem toSnakeCase_cons_present (key : String) (value : JValue)
    (rest : List (String × JValue)) (h : value.isAbsent = false) :
    toSnakeCase ((key, value) :: rest)
      = (snakeKey key, transformValue value) :: toSnakeCase rest := by
  rw [toSnakeCase]
  rw [if_neg (by simp [h])]

mutual
theorem toSnakeCase_idem : ∀ fs, toSnakeCase (toSnakeCase fs) = toSnakeCase fs
  | [] => rfl
  | (key, value) :: rest => by
    by_cases hv : value.isAbsent = true
    · rw [toSnakeCase_cons_absent key value rest hv]
      exact toSnakeCase_idem rest
    · rw [toSnakeCase_cons_present key value rest (by simpa using hv)]
      rw [toSnakeCase_cons_present _ _ _
        (by rw [transformValue_isAbsent]; simpa using hv)]
      rw [snakeKey_idem, transformValue_idem value, toSnakeCase_idem rest]

theorem transformValue_idem : ∀ v, transformValue (transformValue v) = transformValue v
  | .obj fields => by
    show JValue.obj (toSnakeCase (toSnakeCase fields)) = JValue.obj (toSnakeCase fields)
    rw [toSnakeCase_idem fields]
  | .null => rfl
  | .undef => rfl
  | .bool _ => rfl
  | .num _ => rfl
  | .str _ => rfl
  | .arr _ => rfl
end

theorem toSnakeCase_eq_filterMap (fs : List (String × JValue)) :
    toSnakeCase fs
      = (fs.filter (fun p => !p.2.isAbsent)).map
          (fun p => (snakeKey p.1, transformValue p.2)) := by
  induction fs with
  | nil => rfl
  | cons kv rest ih =>
    obtain ⟨key, value⟩ := kv
    by_cases hv : value.isAbsent = true
    · rw [toSnakeCase_cons_absent key value rest hv, ih]
      simp [List.filter_cons, hv]
    · rw [toSnakeCase_cons_present key value rest (by simpa using hv), ih]
      simp [List.filter_cons, Bool.not_eq_true] at hv ⊢
      simp [hv]

theorem snakeKey_all_not_upper (s : String) :
    (snakeKey s).data.all (fun c => !c.isUpper) = true := by
  rw [List.all_eq_true]
  intro c hc
  simp [snakeKey_not_upper s c hc]

mutual
theorem cleanFields_toSnakeCase : ∀ fs, cleanFields (toSnakeCase fs) = true
  | [] => rfl
  | (key, value) :: rest => by
    by_cases hv : value.isAbsent = true
    · rw [toSnakeCase_cons_absent key value rest hv]
      exact cleanFields_toSnakeCase rest
    · rw [toSnakeCase_cons_present key value rest (by simpa using hv)]
      rw [cleanFields]
      rw [transformValue_isAbsent]
      simp only [Bool.not_eq_true] at hv
      rw [hv, snakeKey_all_not_upper, cleanValue_transformValue value,
        cleanFields_toSnakeCase rest]
      rfl

theorem cleanValue_transformValue : ∀ v, cleanValue (transformValue v) = true
  | .obj fields => by
    show cleanFields (toSnakeCase fields) = true
    exact cleanFields_toSnakeCase fields
  | .null => rfl
  | .undef => rfl
  | .bool _ => rfl
  | .num _ => rfl
  | .str _ => rfl
  | .arr _ => rfl
end

/-! Claim theorems. -/

/-- C1: for every parameter record put through the generic body shaping,
`wrapBody` wraps the transformed record as
`{ data: { attributes: toSnakeCase attributes } }`; the transform keeps
exactly the entries whose value is defined (absent values are dropped,
recursively at every object nesting level) with keys snake-cased; and the
produced attributes contain no absent (`undefined`/`null`) value at any
non-sequence nesting level and no uppercase letter in any key. -/
theorem wrapBody_drops_absent_and_snake_cases
    (attributes : List (String × JValue)) :
    wrapBody attributes
      = .obj [("data", .obj [("attributes", .obj (toSnakeCase attributes))])] ∧
    toSnakeCase attributes
      = (attributes.filter (fun p => !p.2.isAbsent)).map
          (fun p => (snakeKey p.1, transformValue p.2)) ∧
    cleanFields (toSnakeCase attributes) = true := by
  refine ⟨rfl, toSnakeCase_eq_filterMap attributes, cleanFields_toSnakeCase attributes⟩

/-- C2: the key transform is idempotent — in particular a key already in
underscore form (no uppercase letters) is left unchanged, so applying the
record transform twice equals applying it once — and the transform
recurses into plain-object values while leaving array values and their
elements untouched. -/
theorem toSnakeCase_idempotent_and_skips_arrays
    (fs : List (String × JValue)) :
    toSnakeCase (toSnakeCase fs) = toSnakeCase fs ∧
    (∀ s : String, (∀ d ∈ s.data, d.isUpper = false) → snakeKey s = s) ∧
    (∀ elems, transformValue (JValue.arr elems) = JValue.arr elems) ∧
    (∀ gs, transformValue (JValue.obj gs) = JValue.obj (toSnakeCase gs)) := by
  exact ⟨toSnakeCase_idem fs, fun s h => snakeKey_of_not_upper s h,
    fun _ => rfl, fun _ => rfl⟩

/-- C2 witness: the theorem applied to a concrete nested record with an
already-underscored key. -/
theorem toSnakeCase_idempotent_and_skips_arrays_witness :
    toSnakeCase (toSnakeCase [("foo_bar", JValue.num 1)])
      = toSnakeCase [("foo_bar", JValue.num 1)] ∧
    snakeKey "foo_bar" = "foo_bar" :=
  ⟨(toSnakeCase_idempotent_and_skips_arrays [("foo_bar", JValue.num 1)]).1,
   (toSnakeCase_idempotent_and_skips_arrays []).2.1 "foo_bar" (by decide)⟩

/-- C3 counterexample: with an empty/absent errors array the fallback
message produced by `fromResponse` is `PayMongo API error (status 400)`,
not the claimed `API error (status 400)`. -/
theorem fromResponse_fallback_message_counterexample :
    (fromResponse 400 none).message = "PayMongo API error (status 400)" ∧
    (fromResponse 400 none).message ≠ "API error (status 400)" := by
  refine ⟨rfl, ?_⟩
  intro h
  simp only [fromResponse] at h
  exact absurd h (by decide)

/-- C3 (amended): the error built by `fromResponse` exposes the HTTP
status, the first detail's code and detail text (falling back to
`unknown_error` and `PayMongo API error (status N)` when the errors array
is empty or absent), and retains the full detail list and the raw body;
in particular the documented 400 example produces status 400, code
`parameter_invalid`, message `amount is required` and one retained
error. -/
theorem fromResponse_fields (status : Nat)
    (body : Option (List PayMongoErrorDetail)) :
    (fromResponse status body).status = status ∧
    (fromResponse status body).errors = body.getD [] ∧
    (fromResponse status body).rawResponse = body ∧
    (∀ e rest, body.getD [] = e :: rest →
      (fromResponse status body).code = e.code ∧
      (fromResponse status body).message = e.detail) ∧
    (body.getD [] = [] →
      (fromResponse status body).code = "unknown_error" ∧
      (fromResponse status body).message
        = "PayMongo API error (status " ++ toString status ++ ")") ∧
    (fromResponse 400 (some [⟨"parameter_invalid", "amount is required", none⟩])
      = { message := "amount is required", status := 400,
          code := "parameter_invalid",
          errors := [⟨"parameter_invalid", "amount is required", none⟩],
          rawResponse := some [⟨"parameter_invalid", "amount is required", none⟩] }) ∧
    (fromResponse 400
        (some [⟨"parameter_invalid", "amount is required", none⟩])).errors.length
      = 1 := by
  refine ⟨rfl, rfl, rfl, ?_, ?_, rfl, rfl⟩
  · intro e rest h
    simp [fromResponse, h]
  · intro h
    simp [fromResponse, h]

/-- C3 witness: the theorem applied at the two documented concrete
inputs. -/
theorem fromResponse_fields_witness :
    (fromResponse 404 none).code = "unknown_error" ∧
    (fromResponse 400
        (some [⟨"parameter_invalid", "amount is required", none⟩])).code
      = "parameter_invalid" :=
  ⟨((fromResponse_fields 404 none).2.2.2.2.1 rfl).1,
   ((fromResponse_fields 400
      (some [⟨"parameter_invalid", "amount is required", none⟩])).2.2.2.1
      ⟨"parameter_invalid", "amount is required", none⟩ [] rfl).1⟩

/-- C4: a request fails with a network error exactly when the underlying
`fetch` call itself fails (wrapping the cause under the fixed message),
fails with an API error exactly when the call completes with a status
outside the 2xx success range, and on a success status returns the parsed
body without raising. -/
theorem request_error_classification (parse : String → Option JValue)
    (outcome : FetchOutcome) :
    ((∃ cause, outcome = .failure cause) ↔
      (∃ cause, request parse outcome =
        .networkError "Network error while communicating with PayMongo API"
          cause)) ∧
    ((∃ status text, outcome = .success status text ∧ statusOk status = false) ↔
      (∃ status body, request parse outcome = .apiError status body)) ∧
    (∀ status text, outcome = .success status text → statusOk status = true →
      request parse outcome = .ok (parseBody parse text)) := by
  cases outcome with
  | failure c =>
    refine ⟨⟨fun _ => ⟨c, rfl⟩, fun _ => ⟨c, rfl⟩⟩, ⟨?_, ?_⟩, ?_⟩
    · rintro ⟨s, t, h, -⟩
      cases h
    · rintro ⟨s, b, h⟩
      simp [request] at h
    · rintro s t h
      cases h
  | success s t =>
    by_cases hok : statusOk s = true
    · refine ⟨⟨?_, ?_⟩, ⟨?_, ?_⟩, ?_⟩
      · rintro ⟨c, h⟩
        cases h
      · rintro ⟨c, h⟩
        simp [request, hok] at h
      · rintro ⟨s', t', h, hbad⟩
        cases h
        rw [hok] at hbad
        cases hbad
      · rintro ⟨s', b, h⟩
        simp [request, hok] at h
      · rintro s' t' h -
        cases h
        simp [request, hok]
    · refine ⟨⟨?_, ?_⟩, ⟨?_, ?_⟩, ?_⟩
      · rintro ⟨c, h⟩
        cases h
      · rintro ⟨c, h⟩
        simp [request, hok] at h
      · rintro -
        exact ⟨s, parseBody parse t, by simp [request, hok]⟩
      · rintro -
        exact ⟨s, t, rfl, by simpa using hok⟩
      · rintro s' t' h hgood
        cases h
        exact absurd hgood hok

/-- C4 witness: a completed 200 response returns the parsed body. -/
theorem request_error_classification_witness :
    request (fun _ => none) (.success 200 "hi") = .ok none := by
  have h := (request_error_classification (fun _ => none)
    (.success 200 "hi")).2.2 200 "hi" rfl (by decide)
  simpa [parseBody] using h

/-- C5: construction with neither credential fails with a configuration
error; a public-mode key not carrying `pk_` or a secret-mode key not
carrying `sk_` fails with a configuration error; and when both
credentials are supplied with a well-formed secret key, the secret key is
the resolved API key and the client is in server-side mode
(`isPublicKey = false`). -/
theorem resolveConfig_validation (pk sk : String) (b : Option String)
    (hpk : pk ≠ "") (hsk : sk ≠ "") :
    (∃ m, resolveConfig ⟨none, none, b⟩ = .error m) ∧
    (jsStartsWith pk "pk_" = false →
      ∃ m, resolveConfig ⟨some pk, none, b⟩ = .error m) ∧
    (jsStartsWith sk "sk_" = false →
      ∃ m, resolveConfig ⟨none, some sk, b⟩ = .error m) ∧
    (jsStartsWith sk "sk_" = true →
      ∃ r, resolveConfig ⟨some pk, some sk, b⟩ = .ok r ∧
        r.apiKey = sk ∧ r.isPublicKey = false) := by
  have hpk' : (pk == "") = false := beq_eq_false_iff_ne.mpr hpk
  have hsk' : (sk == "") = false := beq_eq_false_iff_ne.mpr hsk
  refine ⟨⟨_, rfl⟩, ?_, ?_, ?_⟩
  · intro hpre
    refine ⟨"Invalid public key format. Public keys should start with \"pk_test_\" or \"pk_live_\".", ?_⟩
    simp [resolveConfig, strTruthy, hpk', hpre]
  · intro hpre
    refine ⟨"Invalid secret key format. Secret keys should start with \"sk_test_\" or \"sk_live_\".", ?_⟩
    simp [resolveConfig, strTruthy, hsk', hpre]
  · intro hpre
    refine ⟨{ apiKey := sk,
              baseUrl := if strTruthy b then b.getD "" else defaultBaseUrl,
              isPublicKey := false }, ?_, rfl, rfl⟩
    simp [resolveConfig, strTruthy, hpk', hsk', hpre]

/-- C5 witness: the theorem applied to concrete credentials. -/
theorem resolveConfig_validation_witness :
    (∃ m, resolveConfig ⟨none, none, none⟩ = .error m) ∧
    (∃ m, resolveConfig ⟨some "bad", none, none⟩ = .error m) ∧
    (∃ m, resolveConfig ⟨none, some "bad2", none⟩ = .error m) ∧
    (∃ r, resolveConfig ⟨some "pk_a", some "sk_b", none⟩ = .ok r ∧
      r.apiKey = "sk_b" ∧ r.isPublicKey = false) :=
  ⟨(resolveConfig_validation "bad" "bad2" none (by decide) (by decide)).1,
   (resolveConfig_validation "bad" "bad2" none (by decide) (by decide)).2.1
     (by decide),
   (resolveConfig_validation "bad" "bad2" none (by decide) (by decide)).2.2.1
     (by decide),
   (resolveConfig_validation "pk_a" "sk_b" none (by decide) (by decide)).2.2.2
     (by decide)⟩

theorem buildUrlQuery_foldl (ps : List (String × ParamValue))
    (acc : List (String × String)) :
    ps.foldl
        (fun acc kv =>
          if kv.2.isUndef then acc else acc ++ [(kv.1, paramString kv.2)])
        acc
      = acc ++ (ps.filter (fun kv => !kv.2.isUndef)).map
          (fun kv => (kv.1, paramString kv.2)) := by
  induction ps generalizing acc with
  | nil => simp
  | cons kv rest ih =>
    by_cases h : kv.2.isUndef = true
    · simp [List.foldl_cons, h, ih]
    · simp only [Bool.not_eq_true] at h
      simp [List.foldl_cons, h, ih]

/-- C6: the query built by `buildUrl` consists of exactly the entries
whose value is defined, in order, rendered with `String(value)`; entries
with an undefined value are omitted entirely.  In particular
`{after: "cus_1", limit: undefined}` yields `after=cus_1` and no `limit`
parameter. -/
theorem buildUrlQuery_defined_only (ps : List (String × ParamValue)) :
    buildUrlQuery (some ps)
      = (ps.filter (fun kv => !kv.2.isUndef)).map
          (fun kv => (kv.1, paramString kv.2)) ∧
    buildUrlQuery (some [("after", .str "cus_1"), ("limit", .undef)])
      = [("after", "cus_1")] ∧
    ("after", "cus_1")
      ∈ buildUrlQuery (some [("after", .str "cus_1"), ("limit", .undef)]) ∧
    (buildUrlQuery (some [("after", .str "cus_1"), ("limit", .undef)])).all
        (fun kv => !(kv.1 == "limit")) = true := by
  refine ⟨?_, by decide, by decide, by decide⟩
  show buildUrlQuery (some ps) = _
  unfold buildUrlQuery
  exact buildUrlQuery_foldl ps []

theorem b64Val_b64Char (n : Nat) (h : n < 64) : b64Val (b64Char n) = n := by
  unfold b64Char b64Val
  split_ifs <;> omega

theorem b64Char_ne_61 (n : Nat) : b64Char n ≠ 61 := by
  unfold b64Char
  split_ifs <;> omega

theorem b64_roundtrip :
    ∀ bytes : List Nat, (∀ b ∈ bytes, b < 256) →
      base64DecodeBytes (base64EncodeBytes bytes) = bytes
  | [], _ => rfl
  | [b1], h => by
    have hb1 : b1 < 256 := h b1 (by simp)
    show base64DecodeBytes
        [b64Char (b1 / 4), b64Char (b1 % 4 * 16), 61, 61] = [b1]
    rw [base64DecodeBytes]
    rw [if_pos rfl]
    rw [b64Val_b64Char _ (by omega), b64Val_b64Char _ (by omega)]
    congr 1
    omega
  | [b1, b2], h => by
    have hb1 : b1 < 256 := h b1 (by simp)
    have hb2 : b2 < 256 := h b2 (by simp)
    show base64DecodeBytes
        [b64Char (b1 / 4), b64Char (b1 % 4 * 16 + b2 / 16),
         b64Char (b2 % 16 * 4), 61] = [b1, b2]
    rw [base64DecodeBytes]
    rw [if_neg (b64Char_ne_61 _), if_pos rfl]
    rw [b64Val_b64Char _ (by omega), b64Val_b64Char _ (by omega),
      b64Val_b64Char _ (by omega)]
    have e1 : b1 / 4 * 4 + (b1 % 4 * 16 + b2 / 16) / 16 = b1 := by omega
    have e2 : (b1 % 4 * 16 + b2 / 16) % 16 * 16 + b2 % 16 * 4 / 4 = b2 := by
      omega
    rw [e1, e2]
  | b1 :: b2 :: b3 :: rest, h => by
    have hb1 : b1 < 256 := h b1 (by simp)
    have hb2 : b2 < 256 := h b2 (by simp)
    have hb3 : b3 < 256 := h b3 (by simp)
    have ih : base64DecodeBytes (base64EncodeBytes rest) = rest :=
      b64_roundtrip rest (fun b hb => h b (by simp [hb]))
    show base64DecodeBytes
        (b64Char (b1 / 4) :: b64Char (b1 % 4 * 16 + b2 / 16)
          :: b64Char (b2 % 16 * 4 + b3 / 64) :: b64Char (b3 % 64)
          :: base64EncodeBytes rest) = b1 :: b2 :: b3 :: rest
    rw [base64DecodeBytes]
    rw [if_neg (b64Char_ne_61 _), if_neg (b64Char_ne_61 _)]
    rw [b64Val_b64Char _ (by omega), b64Val_b64Char _ (by omega),
      b64Val_b64Char _ (by omega), b64Val_b64Char _ (by omega)]
    rw [ih]
    have e1 : b1 / 4 * 4 + (b1 % 4 * 16 + b2 / 16) / 16 = b1 := by omega
    have e2 : (b1 % 4 * 16 + b2 / 16) % 16 * 16
        + (b2 % 16 * 4 + b3 / 64) / 4 = b2 := by omega
    have e3 : (b2 % 16 * 4 + b3 / 64) % 4 * 64 + b3 % 64 = b3 := by omega
    rw [e1, e2, e3]

/-- C7: every request carries an Authorization header whose value is
`Basic ` followed by the base64 encoding of the API key followed by a
colon (username = key, empty password); base64 decoding inverts the
encoding, and in particular for key `sk_test_abc` the encoded portion
decodes back to exactly the bytes of `sk_test_abc:`. -/
theorem authHeader_basic_base64 (apiKey : String) :
    List.lookup "Authorization" (requestHeaders apiKey)
      = some (getAuthHeader apiKey) ∧
    getAuthHeader apiKey
      = asciiCodes "Basic " ++ base64EncodeBytes (asciiCodes (apiKey ++ ":")) ∧
    (∀ bytes : List Nat, (∀ b ∈ bytes, b < 256) →
      base64DecodeBytes (base64EncodeBytes bytes) = bytes) ∧
    base64DecodeBytes (base64EncodeBytes (asciiCodes ("sk_test_abc" ++ ":")))
      = asciiCodes "sk_test_abc" ++ [58] := by
  refine ⟨rfl, rfl, b64_roundtrip, by decide⟩

/-- C7 witness: the roundtrip hypothesis discharged on concrete bytes. -/
theorem authHeader_basic_base64_witness :
    base64DecodeBytes (base64EncodeBytes [115, 107, 58]) = [115, 107, 58] :=
  (authHeader_basic_base64 "sk").2.2.1 [115, 107, 58] (by decide)

/-- C8: on a success status, an empty response body yields an absent
(`none`) result rather than an error, and a non-empty body on which
`JSON.parse` fails also yields an absent result — the parse failure is
swallowed, never surfaced as an error. -/
theorem request_swallows_parse_failures (parse : String → Option JValue)
    (status : Nat) (h : statusOk status = true) :
    request parse (.success status "") = .ok none ∧
    (∀ text, parse text = none →
      request parse (.success status text) = .ok none) := by
  refine ⟨by simp [request, parseBody, h], ?_⟩
  intro t ht
  have hb : parseBody parse t = none := by
    unfold parseBody
    split
    · rfl
    · exact ht
  simp [request, hb, h]

/-- C8 witness: concrete 200 responses with an empty and an unparseable
body. -/
theorem request_swallows_parse_failures_witness :
    request (fun _ => none) (.success 200 "") = .ok none ∧
    request (fun _ => none) (.success 200 "oops") = .ok none :=
  ⟨(request_swallows_parse_failures (fun _ => none) 200 (by decide)).1,
   (request_swallows_parse_failures (fun _ => none) 200 (by decide)).2
     "oops" rfl⟩

/-- C9: with an instance stored and `forceNew` not requested,
`getInstance` returns that same stored instance, ignoring the new
configuration; with no stored instance or with `forceNew`, it constructs
and stores a new instance; and `resetInstance` clears the stored state so
the next `getInstance` constructs afresh. -/
theorem getInstance_singleton (config : PayMongoConfig) (forceNew : Bool)
    (inst : Option PayMongoClient) (p q : PayMongoClient) :
    getInstance config false (some p) = (.ok p, some p) ∧
    ((inst = none ∨ forceNew = true) → mkPayMongo config = .ok q →
      getInstance config forceNew inst = (.ok q, some q)) ∧
    resetInstance inst = none ∧
    (mkPayMongo config = .ok q →
      getInstance config forceNew (resetInstance inst) = (.ok q, some q)) := by
  refine ⟨rfl, ?_, rfl, ?_⟩
  · rintro (rfl | rfl) hmk
    · cases forceNew <;> simp [getInstance, hmk]
    · cases inst <;> simp [getInstance, hmk]
  · intro hmk
    cases forceNew <;> simp [getInstance, resetInstance, hmk]

/-- C9 witness: a concrete secret-key configuration constructed through
`getInstance` on empty state. -/
theorem getInstance_singleton_witness :
    getInstance ⟨none, some "sk_test_x", none⟩ true none
      = (.ok ⟨⟨"sk_test_x", defaultBaseUrl, false⟩⟩,
         some ⟨⟨"sk_test_x", defaultBaseUrl, false⟩⟩) :=
  (getInstance_singleton ⟨none, some "sk_test_x", none⟩ true none
      ⟨⟨"sk_test_x", defaultBaseUrl, false⟩⟩
      ⟨⟨"sk_test_x", defaultBaseUrl, false⟩⟩).2.1 (Or.inl rfl) rfl

/-- C10: when construction fails inside `getInstance`, the configuration
error propagates (whenever construction is attempted at all) and the
stored singleton state is unchanged: a previously stored instance
survives and is returned by a later `getInstance` without `forceNew`, and
if no instance existed none is created. -/
theorem getInstance_error_preserves_state (config config2 : PayMongoConfig)
    (forceNew : Bool) (inst : Option PayMongoClient) (e : String)
    (p : PayMongoClient) (h : mkPayMongo config = .error e) :
    (getInstance config forceNew inst).2 = inst ∧
    ((inst = none ∨ forceNew = true) →
      (getInstance config forceNew inst).1 = .error e) ∧
    (inst = some p →
      getInstance config2 false ((getInstance config forceNew inst).2)
        = (.ok p, some p)) := by
  refine ⟨?_, ?_, ?_⟩
  · cases inst <;> cases forceNew <;> simp [getInstance, h]
  · rintro (rfl | rfl)
    · cases forceNew <;> simp [getInstance, h]
    · cases inst <;> simp [getInstance, h]
  · rintro rfl
    cases forceNew <;> simp [getInstance, h]

/-- C10 witness: a credential-less `getInstance` over a stored instance
leaves it in place and a later plain `getInstance` still returns it. -/
theorem getInstance_error_preserves_state_witness :
    (getInstance ⟨none, none, none⟩ true
        (some ⟨⟨"sk_test_x", defaultBaseUrl, false⟩⟩)).2
      = some ⟨⟨"sk_test_x", defaultBaseUrl, false⟩⟩ ∧
    getInstance ⟨some "pk_y", none, none⟩ false
        ((getInstance ⟨none, none, none⟩ true
          (some ⟨⟨"sk_test_x", defaultBaseUrl, false⟩⟩)).2)
      = (.ok ⟨⟨"sk_test_x", defaultBaseUrl, false⟩⟩,
         some ⟨⟨"sk_test_x", defaultBaseUrl, false⟩⟩) :=
  ⟨(getInstance_error_preserves_state ⟨none, none, none⟩
      ⟨some "pk_y", none, none⟩ true
      (some ⟨⟨"sk_test_x", defaultBaseUrl, false⟩⟩)
      ("PayMongo requires either a publicKey or secretKey. " ++
        "Use publicKey for client-side operations, secretKey for server-side operations.")
      ⟨⟨"sk_test_x", defaultBaseUrl, false⟩⟩ rfl).1,
   (getInstance_error_preserves_state ⟨none, none, none⟩
      ⟨some "pk_y", none, none⟩ true
      (some ⟨⟨"sk_test_x", defaultBaseUrl, false⟩⟩)
      ("PayMongo requires either a publicKey or secretKey. " ++
        "Use publicKey for client-side operations, secretKey for server-side operations.")
      ⟨⟨"sk_test_x", defaultBaseUrl, false⟩⟩ rfl).2.2 rfl⟩

/-- C1 witness: the theorem applied to a concrete record with an absent
value and a camelCase key. -/
theorem wrapBody_drops_absent_and_snake_cases_witness :
    wrapBody [("fooBar", JValue.num 3), ("gone", JValue.null)]
      = .obj [("data",
          .obj [("attributes", .obj (toSnakeCase
            [("fooBar", JValue.num 3), ("gone", JValue.null)]))])] ∧
    toSnakeCase [("fooBar", JValue.num 3), ("gone", JValue.null)]
      = [("foo_bar", JValue.num 3)] :=
  ⟨(wrapBody_drops_absent_and_snake_cases
      [("fooBar", JValue.num 3), ("gone", JValue.null)]).1, rfl⟩

/-- C6 witness: the theorem instantiated at the documented example. -/
theorem buildUrlQuery_defined_only_witness :
    buildUrlQuery
        (some [("after", ParamValue.str "cus_1"), ("limit", ParamValue.undef)])
      = [("after", "cus_1")] :=
  (buildUrlQuery_defined_only
    [("after", ParamValue.str "cus_1"), ("limit", ParamValue.undef)]).2.1

end PayMongoSpec
